import Mathlib

/-!
Verification of `elastictools` (`src/backup/load.py`), a bulk restore tool for
a search cluster.  The `Loader` class reads `settings.json` / `mappings.json`
(metadata restore) and `data.json` (line-delimited JSON documents), batches the
documents into chunks of `chunk_size`, and schedules one asynchronous bulk
submission task per chunk.  We embed the pure control flow of `upload_data`,
`create_index_with_meta` and `start` as Lean functions; asynchronous task
scheduling is recorded as the list of scheduled batches (in submission order),
and reaching the final `await asyncio.wait(inserts)` statement is recorded as a
Boolean flag.
-/

namespace ElasticTools

/-- JSON values as produced by `ujson.loads` (arrays omitted: no value handled
by the claims under verification is an array). -/
inductive JVal : Type where
  | str (s : String)
  | num (n : Int)
  | bool (b : Bool)
  | null
  | obj (fields : List (String × JVal))

/-- First-match lookup in a JSON object's field list (Python dict access;
Python dict keys are unique, so first-match agrees with dict semantics). -/
def lookupKey (d : List (String × JVal)) (k : String) : Option JVal :=
  match d with
  | [] => none
  | (k', v) :: rest => if k' = k then some v else lookupKey rest k

mutual

/-- Python `repr` of a JSON-shaped value (`repr` of a `dict` uses
single-quoted keys; string escaping is not modelled, no claim touches it). -/
def pyRepr : JVal → String
  | .str s => "'" ++ s ++ "'"
  | .num n => toString n
  | .bool b => if b then "True" else "False"
  | .null => "None"
  | .obj fs => "\x7b" ++ pyReprFields fs ++ "\x7d"

/-- Python `repr` of the comma-separated field list of a `dict`. -/
def pyReprFields : List (String × JVal) → String
  | [] => ""
  | [(k, v)] => "'" ++ k ++ "': " ++ pyRepr v
  | (k, v) :: rest => "'" ++ k ++ "': " ++ pyRepr v ++ ", " ++ pyReprFields rest

end

/-- Python `str()` coercion: identity on strings, `repr` otherwise
(`str(5) = "5"`, `str(True) = "True"`, `str(None) = "None"`). -/
def pyStr (v : JVal) : String :=
  match v with
  | .str s => s
  | _ => pyRepr v

/-- Python truthiness of `res.get('acknowledged')`: `None` (absent key),
`False`, `0`, `""` and `{}` are falsy, everything else truthy. -/
def truthy : Option JVal → Bool
  | none => false
  | some (.bool b) => b
  | some .null => false
  | some (.str s) => decide (s ≠ "")
  | some (.num n) => decide (n ≠ 0)
  | some (.obj fs) => !fs.isEmpty

/-- Python subscription `v[k]`: field lookup when `v` is a dict, failure
(`TypeError` / `KeyError`) otherwise. -/
def getItem (v : JVal) (k : String) : Option JVal :=
  match v with
  | .obj fs => lookupKey fs k
  | _ => none

/-- The object part of a JSON value (`.pop` requires a dict). -/
def asObj : JVal → Option (List (String × JVal))
  | .obj fs => some fs
  | _ => none

/-- One element of the `actions` list built at load.py line 83:
`{"_index": self.index, "_id": str(obj['_id']), "_source": obj['_source']}`. -/
structure Action where
  index : String
  id : String
  source : JVal

/-- Lines 82–83 of `upload_data` applied to one line of `data.json`:
`ujson.loads` (a line that is not valid JSON is `none`), then extraction of
`obj['_id']` (coerced with `str`) and `obj['_source']`.  `none` is the fatal
`ParseError` of the spec (invalid JSON, or `KeyError` on a missing field). -/
def parseLine (index : String) (line : Option JVal) : Option Action := do
  let obj ← line
  let idv ← getItem obj "_id"
  let src ← getItem obj "_source"
  pure ⟨index, pyStr idv, src⟩

/-- Line 84 of `upload_data`: `if self.limit and i >= self.limit: break`.
A `limit` of `None` or `0` is falsy in Python, so it never triggers. -/
def limitHit (limit : Option Int) (i : Nat) : Bool :=
  match limit with
  | none => false
  | some l => decide (l ≠ 0 ∧ l ≤ (i : Int))

/-- Errors that can escape `upload_data`: a fatal `ParseError` at a given
1-based line number, or the `ValueError` that `asyncio.wait` raises on an
empty set of awaitables. -/
inductive UploadError where
  | parseError (lineNo : Nat)
  | valueError
deriving DecidableEq

/-- Observable outcome of `upload_data`: the batches handed to
`asyncio.create_task(async_bulk ...)` in submission order, whether control
reached the `await asyncio.wait(inserts)` statement at line 92, and the
error (if any) that escaped. -/
structure UploadResult where
  scheduled : List (List Action)
  reachedWait : Bool
  error : Option UploadError

/-- The `async for line in f` loop of `upload_data` (lines 80–89).  State:
`i` is the line counter, `actions` the current buffer, `inserts` the batches
already scheduled.  Returns the final `(inserts, actions)` together with
`some lineNo` when a `ParseError` aborted the loop at that line.  The
`deepcopy` at line 87 is the identity on our pure values. -/
def uploadLoop (index : String) (chunk_size : Nat) (limit : Option Int)
    (lines : List (Option JVal)) (i : Nat) (actions : List Action)
    (inserts : List (List Action)) :
    List (List Action) × List Action × Option Nat :=
  match lines with
  | [] => (inserts, actions, none)
  | line :: rest =>
    match parseLine index line with
    | none => (inserts, actions, some (i + 1))
    | some a =>
      if limitHit limit (i + 1) then (inserts, actions ++ [a], none)
      else if (i + 1) % chunk_size == 0 then
        uploadLoop index chunk_size limit rest (i + 1) [] (inserts ++ [actions ++ [a]])
      else
        uploadLoop index chunk_size limit rest (i + 1) (actions ++ [a]) inserts

/-- `Loader.upload_data` (lines 76–93).  On a `ParseError` the exception
propagates out of the `async with` block before line 92, so the wait is never
reached and the scheduled tasks are left unawaited.  Otherwise the trailing
partial buffer is scheduled (lines 90–91) and `asyncio.wait(inserts)` runs —
raising `ValueError` when `inserts` is empty.  `error = none` means the final
completion log at line 93 was reached. -/
def upload_data (index : String) (chunk_size : Nat) (limit : Option Int)
    (lines : List (Option JVal)) : UploadResult :=
  match uploadLoop index chunk_size limit lines 0 [] [] with
  | (inserts, _, some n) => ⟨inserts, false, some (.parseError n)⟩
  | (inserts, actions, none) =>
    let inserts := if actions.isEmpty then inserts else inserts ++ [actions]
    if inserts.isEmpty then ⟨inserts, true, some .valueError⟩
    else ⟨inserts, true, none⟩

/-- Whether the completion log `'Data upload finished!'` at line 93 runs:
only when no exception escaped `upload_data`. -/
def completionLogged (r : UploadResult) : Bool :=
  r.error.isNone

/-- Reference (spec-side) description of the records the read loop consumes:
the parsed records of the stream, truncated where the limit check would
break.  Used to compare batch contents against read order. -/
def recordsReadAux (index : String) (limit : Option Int)
    (lines : List (Option JVal)) (i : Nat) : List Action :=
  match lines with
  | [] => []
  | line :: rest =>
    match parseLine index line with
    | none => []
    | some a =>
      if limitHit limit (i + 1) then [a]
      else a :: recordsReadAux index limit rest (i + 1)

/-- The records read from the whole stream (reference definition). -/
def recordsRead (index : String) (limit : Option Int)
    (lines : List (Option JVal)) : List Action :=
  recordsReadAux index limit lines 0

/-- Python `dict.pop(k)` with no default (lines 64–68): removes key `k`,
raises `KeyError` (here `none`) when the key is absent. -/
def dictPop (d : List (String × JVal)) (k : String) :
    Option (List (String × JVal)) :=
  match lookupKey d k with
  | none => none
  | some _ => some (d.filter (fun kv => kv.1 ≠ k))

/-- Lines 64–68 of `create_index_with_meta`: strip the five cluster-local
keys from the settings object, failing (`KeyError`) if any is absent. -/
def stripSettings (settings : List (String × JVal)) :
    Option (List (String × JVal)) := do
  let s ← dictPop settings "routing"
  let s ← dictPop s "provided_name"
  let s ← dictPop s "creation_date"
  let s ← dictPop s "uuid"
  let s ← dictPop s "version"
  pure s

/-- Result of `Loader.create_index_with_meta`: the body sent to the cluster
and the log line chosen at line 74. -/
structure MetaOutcome where
  settings : List (String × JVal)
  mappings : JVal
  log : String

/-- `Loader.create_index_with_meta` (lines 58–74).  `settingsLine` and
`mappingsLine` are the `ujson.loads` results of the one-line metadata files
(`none` = invalid JSON).  `createRes` is the cluster's response dict to
`es.indices.create` (the client is an external collaborator; per the spec's
interface it returns `{acknowledged: bool}` and the step inspects
`res.get('acknowledged')`).  `none` models an exception escaping the step
(malformed metadata); a cluster-side rejection is only a falsy
`acknowledged` and never fails the step. -/
def create_index_with_meta (settingsLine mappingsLine : Option JVal)
    (createRes : List (String × JVal)) : Option MetaOutcome := do
  let sv ← settingsLine
  let sIndex ← getItem sv "index"
  let sdict ← asObj sIndex
  let stripped ← stripSettings sdict
  let mv ← mappingsLine
  pure ⟨stripped, mv,
    if truthy (lookupKey createRes "acknowledged") then "Index created sucessfully!"
    else "Index creation failed!"⟩

/-- Trace of one run of `Loader.start` (lines 53–56): which steps ran and
their outcomes.  `metaFailed` is an exception escaping
`create_index_with_meta`, which prevents `upload_data` from running. -/
inductive RunTrace where
  | metaThenUpload (m : MetaOutcome) (u : UploadResult)
  | uploadOnly (u : UploadResult)
  | metaFailed

/-- `Loader.start` (lines 53–56): metadata restore first iff
`mode == 'default'`, then the data upload. -/
def start (mode : String) (settingsLine mappingsLine : Option JVal)
    (createRes : List (String × JVal)) (index : String) (chunk_size : Nat)
    (limit : Option Int) (lines : List (Option JVal)) : RunTrace :=
  if mode = "default" then
    match create_index_with_meta settingsLine mappingsLine createRes with
    | none => .metaFailed
    | some m => .metaThenUpload m (upload_data index chunk_size limit lines)
  else
    .uploadOnly (upload_data index chunk_size limit lines)

/-- A well-formed `data.json` line whose `_id` is the number `n`. -/
def sampleLine (n : Int) : Option JVal :=
  some (.obj [("_id", .num n), ("_source", .obj [("f", .str "x")])])

/-- A concrete exported settings object carrying the five cluster-local keys
(plus two portable ones), as found under `"index"` in `settings.json`. -/
def exSettings : List (String × JVal) :=
  [("number_of_shards", .str "1"), ("routing", .obj []),
   ("provided_name", .str "idx"), ("creation_date", .str "0"),
   ("uuid", .str "u"), ("version", .obj []), ("number_of_replicas", .str "1")]

/-- `exSettings` after the five cluster-local keys are stripped. -/
def exStripped : List (String × JVal) :=
  [("number_of_shards", .str "1"), ("number_of_replicas", .str "1")]

/-- A minimal settings object consisting of exactly the five stripped keys. -/
def rSettings : List (String × JVal) :=
  [("routing", .null), ("provided_name", .null), ("creation_date", .null),
   ("uuid", .null), ("version", .null)]

/-- A `settings.json` line wrapping `rSettings` under the `"index"` key. -/
def rSettingsLine : Option JVal :=
  some (.obj [("index", .obj rSettings)])

/-! ### Helper lemmas -/

/-- Successor modulo: when `(i + 1) % cs` is nonzero it is `i % cs + 1`. -/
theorem mod_succ_of_ne_zero {i cs : Nat} (hcs : 0 < cs)
    (h : (i + 1) % cs ≠ 0) : (i + 1) % cs = i % cs + 1 := by
  have hi : i % cs < cs := Nat.mod_lt _ hcs
  have heq : (i + 1) % cs = (i % cs + 1) % cs := by
    conv_lhs => rw [← Nat.mod_add_mod]
  rcases (by omega : i % cs + 1 < cs ∨ i % cs + 1 = cs) with hlt | hl
  · rw [heq, Nat.mod_eq_of_lt hlt]
  · exact absurd (by rw [heq, hl, Nat.mod_self]) h

/-- When `(i + 1) % cs = 0`, the running buffer length `i % cs` has just
reached `cs - 1`, i.e. `i % cs + 1 = cs`. -/
theorem mod_succ_eq_zero_iff_full {i cs : Nat} (hcs : 0 < cs)
    (h : (i + 1) % cs = 0) : i % cs + 1 = cs := by
  have hi : i % cs < cs := Nat.mod_lt _ hcs
  have heq : (i % cs + 1) % cs = 0 := by rw [Nat.mod_add_mod, h]
  rcases (by omega : i % cs + 1 < cs ∨ i % cs + 1 = cs) with hlt | hl
  · rw [Nat.mod_eq_of_lt hlt] at heq; omega
  · exact hl

/-- On a stream of well-formed lines the read loop never raises, and the
records it has distributed into scheduled batches plus the running buffer
are exactly the starting state plus the records it reads. -/
theorem uploadLoop_wf (index : String) (cs : Nat) (limit : Option Int)
    (lines : List (Option JVal)) :
    ∀ (i : Nat) (actions : List Action) (inserts : List (List Action)),
      (∀ l ∈ lines, (parseLine index l).isSome) →
      (uploadLoop index cs limit lines i actions inserts).2.2 = none ∧
      (uploadLoop index cs limit lines i actions inserts).1.flatten ++
          (uploadLoop index cs limit lines i actions inserts).2.1
        = inserts.flatten ++ (actions ++ recordsReadAux index limit lines i) := by
  induction lines with
  | nil => intro i actions inserts _; simp [uploadLoop, recordsReadAux]
  | cons line rest ih =>
    intro i actions inserts hwf
    obtain ⟨a, ha⟩ := Option.isSome_iff_exists.mp (hwf line (List.mem_cons_self _ _))
    have hrest : ∀ l ∈ rest, (parseLine index l).isSome :=
      fun l hl => hwf l (List.mem_cons_of_mem _ hl)
    by_cases hlim : limitHit limit (i + 1)
    · simp [uploadLoop, recordsReadAux, ha, hlim, List.append_assoc]
    · by_cases hmod : (i + 1) % cs = 0
      · obtain ⟨ih1, ih2⟩ := ih (i + 1) [] (inserts ++ [actions ++ [a]]) hrest
        simp only [uploadLoop, recordsReadAux, ha, hlim, hmod, beq_self_eq_true,
          if_true, Bool.false_eq_true, if_false]
        exact ⟨ih1, by rw [ih2]; simp [List.append_assoc]⟩
      · obtain ⟨ih1, ih2⟩ := ih (i + 1) (actions ++ [a]) inserts hrest
        have hmod' : ((i + 1) % cs == 0) = false := by simp [hmod]
        simp only [uploadLoop, recordsReadAux, ha, hlim, hmod', Bool.false_eq_true,
          if_false]
        exact ⟨ih1, by rw [ih2]; simp [List.append_assoc]⟩

/-- `upload_data` unfolded when the read loop completes without a
`ParseError`: the trailing buffer is flushed and the wait statement runs,
raising `ValueError` exactly when no task was scheduled. -/
theorem upload_data_eq_of_loop (index : String) (cs : Nat) (limit : Option Int)
    (lines : List (Option JVal)) (inserts : List (List Action))
    (actions : List Action)
    (hr : uploadLoop index cs limit lines 0 [] [] = (inserts, actions, none)) :
    upload_data index cs limit lines =
      ⟨if actions.isEmpty then inserts else inserts ++ [actions], true,
        if (if actions.isEmpty then inserts else inserts ++ [actions]).isEmpty
        then some .valueError else none⟩ := by
  unfold upload_data
  rw [hr]
  by_cases h : actions.isEmpty <;> simp only [h, if_true, Bool.false_eq_true, if_false] <;>
    split <;> simp_all

/-- `upload_data` unfolded when the read loop aborts with a `ParseError`:
the wait statement is never reached. -/
theorem upload_data_eq_of_loop_err (index : String) (cs : Nat)
    (limit : Option Int) (lines : List (Option JVal))
    (inserts : List (List Action)) (actions : List Action) (n : Nat)
    (hr : uploadLoop index cs limit lines 0 [] [] = (inserts, actions, some n)) :
    upload_data index cs limit lines = ⟨inserts, false, some (.parseError n)⟩ := by
  unfold upload_data
  rw [hr]

/-- Size invariant of the read loop with no limit: every scheduled batch has
exactly `cs` records, and the running buffer tracks the line counter modulo
`cs`. -/
theorem uploadLoop_sizes (index : String) (cs : Nat) (hcs : 0 < cs)
    (lines : List (Option JVal)) :
    ∀ (i : Nat) (actions : List Action) (inserts : List (List Action)),
      (∀ l ∈ lines, (parseLine index l).isSome) →
      actions.length = i % cs →
      (∀ b ∈ inserts, b.length = cs) →
      (∀ b ∈ (uploadLoop index cs none lines i actions inserts).1, b.length = cs) ∧
      (uploadLoop index cs none lines i actions inserts).2.1.length
        = (i + lines.length) % cs := by
  induction lines with
  | nil => intro i actions inserts _ hlen hins; simpa [uploadLoop] using ⟨hins, hlen⟩
  | cons line rest ih =>
    intro i actions inserts hwf hlen hins
    obtain ⟨a, ha⟩ := Option.isSome_iff_exists.mp (hwf line (List.mem_cons_self _ _))
    have hrest : ∀ l ∈ rest, (parseLine index l).isSome :=
      fun l hl => hwf l (List.mem_cons_of_mem _ hl)
    have hnolim : limitHit none (i + 1) = false := rfl
    by_cases hmod : (i + 1) % cs = 0
    · have hfull : (actions ++ [a]).length = cs := by
        have := mod_succ_eq_zero_iff_full hcs hmod
        simp [hlen]; omega
      have hins' : ∀ b ∈ inserts ++ [actions ++ [a]], b.length = cs := by
        intro b hb
        rcases List.mem_append.mp hb with hb | hb
        · exact hins b hb
        · simp at hb; subst hb; exact hfull
      obtain ⟨ih1, ih2⟩ := ih (i + 1) [] (inserts ++ [actions ++ [a]]) hrest
        (by simp [hmod]) hins'
      simp only [uploadLoop, ha, hnolim, hmod, beq_self_eq_true, if_true,
        Bool.false_eq_true, if_false]
      refine ⟨ih1, ?_⟩
      rw [ih2]
      congr 1
      simp; omega
    · have hmod' : ((i + 1) % cs == 0) = false := by simp [hmod]
      have hlen' : (actions ++ [a]).length = (i + 1) % cs := by
        rw [mod_succ_of_ne_zero hcs hmod]
        simp [hlen]
      obtain ⟨ih1, ih2⟩ := ih (i + 1) (actions ++ [a]) inserts hrest hlen' hins
      simp only [uploadLoop, ha, hnolim, hmod', Bool.false_eq_true, if_false]
      refine ⟨ih1, ?_⟩
      rw [ih2]
      congr 1
      simp; omega

/-- The reference read list does not depend on the counter when there is no
limit. -/
theorem recordsReadAux_none_irrel (index : String)
    (lines : List (Option JVal)) :
    ∀ i j : Nat,
      recordsReadAux index none lines i = recordsReadAux index none lines j := by
  induction lines with
  | nil => intro i j; rfl
  | cons line rest ih =>
    intro i j
    simp only [recordsReadAux]
    cases parseLine index line with
    | none => rfl
    | some a => simpa [limitHit] using ih (i + 1) (j + 1)

/-- With a positive limit `L` still ahead, the records read are exactly the
records of the first `L - i` remaining lines. -/
theorem recordsReadAux_limit_take (index : String) (L : Int) (hL : 0 < L)
    (lines : List (Option JVal)) :
    ∀ i : Nat, (i : Int) < L →
      recordsReadAux index (some L) lines i
        = recordsReadAux index none (lines.take (L.toNat - i)) i := by
  induction lines with
  | nil => intro i _; simp [recordsReadAux]
  | cons line rest ih =>
    intro i hi
    have htk : L.toNat - i = (L.toNat - (i + 1)) + 1 := by omega
    rw [htk]
    simp only [List.take_succ_cons, recordsReadAux]
    cases parseLine index line with
    | none => rfl
    | some a =>
      have hnone : limitHit none (i + 1) = false := rfl
      by_cases hhit : L ≤ ((i : Int) + 1)
      · have hL1 : L.toNat - (i + 1) = 0 := by omega
        have hone : limitHit (some L) (i + 1) = true := by
          simp only [limitHit, decide_eq_true_eq]
          refine ⟨by omega, by push_cast; omega⟩
        rw [hone, hL1]
        simp [recordsReadAux, hnone]
      · have hmiss : limitHit (some L) (i + 1) = false := by
          simp only [limitHit, decide_eq_false_iff_not, not_and]
          intro _
          push_cast
          omega
        simp only [hmiss, hnone, Bool.false_eq_true, if_false]
        rw [ih (i + 1) (by push_cast; omega)]

/-- On well-formed lines with no limit, every line contributes one record. -/
theorem recordsReadAux_wf_length (index : String)
    (lines : List (Option JVal)) :
    ∀ i : Nat, (∀ l ∈ lines, (parseLine index l).isSome) →
      (recordsReadAux index none lines i).length = lines.length := by
  induction lines with
  | nil => intro i _; rfl
  | cons line rest ih =>
    intro i hwf
    obtain ⟨a, ha⟩ := Option.isSome_iff_exists.mp (hwf line (List.mem_cons_self _ _))
    have hrest : ∀ l ∈ rest, (parseLine index l).isSome :=
      fun l hl => hwf l (List.mem_cons_of_mem _ hl)
    simp only [recordsReadAux, ha, limitHit, Bool.false_eq_true, if_false,
      List.length_cons]
    rw [ih (i + 1) hrest]

/-- When a malformed line follows a well-formed prefix that the limit does
not cut short, the read loop aborts with a `ParseError` at exactly that
line's (1-based) number. -/
theorem uploadLoop_parse_fail (index : String) (cs : Nat) (limit : Option Int)
    (bad : Option JVal) (hbad : parseLine index bad = none)
    (rest : List (Option JVal)) :
    ∀ (pre : List (Option JVal)) (i : Nat) (actions : List Action)
      (inserts : List (List Action)),
      (∀ l ∈ pre, (parseLine index l).isSome) →
      (∀ j, i < j → j ≤ i + pre.length → limitHit limit j = false) →
      (uploadLoop index cs limit (pre ++ bad :: rest) i actions inserts).2.2
        = some (i + pre.length + 1) := by
  intro pre
  induction pre with
  | nil => intro i actions inserts _ _; simp [uploadLoop, hbad]
  | cons line pre' ih =>
    intro i actions inserts hwf hlim
    obtain ⟨a, ha⟩ := Option.isSome_iff_exists.mp (hwf line (List.mem_cons_self _ _))
    have hpre' : ∀ l ∈ pre', (parseLine index l).isSome :=
      fun l hl => hwf l (List.mem_cons_of_mem _ hl)
    have hlim1 : limitHit limit (i + 1) = false := hlim (i + 1) (by omega) (by simp)
    have hlim' : ∀ j, i + 1 < j → j ≤ (i + 1) + pre'.length → limitHit limit j = false :=
      fun j h1 h2 => hlim j (by omega) (by simp; omega)
    simp only [List.cons_append, uploadLoop, ha, hlim1, Bool.false_eq_true, if_false]
    simp only [List.append_eq]
    by_cases hmod : (i + 1) % cs = 0
    · simp only [hmod, beq_self_eq_true, if_true]
      rw [ih (i + 1) [] (inserts ++ [actions ++ [a]]) hpre' hlim']
      congr 1
      simp
      omega
    · have hmod' : ((i + 1) % cs == 0) = false := by simp [hmod]
      simp only [hmod', Bool.false_eq_true, if_false]
      rw [ih (i + 1) (actions ++ [a]) inserts hpre' hlim']
      congr 1
      simp
      omega

/-- A limit of `0` is falsy in Python, so the read loop with `limit = 0`
coincides with the unlimited loop. -/
theorem uploadLoop_limit_zero (index : String) (cs : Nat)
    (lines : List (Option JVal)) :
    ∀ (i : Nat) (actions : List Action) (inserts : List (List Action)),
      uploadLoop index cs (some 0) lines i actions inserts
        = uploadLoop index cs none lines i actions inserts := by
  induction lines with
  | nil => intro i actions inserts; rfl
  | cons line rest ih =>
    intro i actions inserts
    simp only [uploadLoop]
    cases parseLine index line with
    | none => rfl
    | some a =>
      have h0 : limitHit (some 0) (i + 1) = false := by simp [limitHit]
      have hn : limitHit none (i + 1) = false := rfl
      rw [h0, hn]
      by_cases hmod : (i + 1) % cs = 0
      · simp only [hmod, beq_self_eq_true, if_true, Bool.false_eq_true, if_false]
        exact ih (i + 1) [] (inserts ++ [actions ++ [a]])
      · have hmod' : ((i + 1) % cs == 0) = false := by simp [hmod]
        simp only [hmod', Bool.false_eq_true, if_false]
        exact ih (i + 1) (actions ++ [a]) inserts

/-- The reference read list with `limit = 0` coincides with the unlimited
one. -/
theorem recordsReadAux_limit_zero (index : String)
    (lines : List (Option JVal)) :
    ∀ i : Nat,
      recordsReadAux index (some 0) lines i = recordsReadAux index none lines i := by
  induction lines with
  | nil => intro i; rfl
  | cons line rest ih =>
    intro i
    simp only [recordsReadAux]
    cases parseLine index line with
    | none => rfl
    | some a =>
      have h0 : limitHit (some 0) (i + 1) = false := by simp [limitHit]
      have hn : limitHit none (i + 1) = false := rfl
      rw [h0, hn]
      simp only [Bool.false_eq_true, if_false]
      rw [ih (i + 1)]

/-- The scheduled batches of `upload_data`, given the loop's final state. -/
theorem upload_data_scheduled_of_loop (index : String) (cs : Nat)
    (limit : Option Int) (lines : List (Option JVal))
    (inserts : List (List Action)) (actions : List Action)
    (hr : uploadLoop index cs limit lines 0 [] [] = (inserts, actions, none)) :
    (upload_data index cs limit lines).scheduled
      = if actions.isEmpty then inserts else inserts ++ [actions] := by
  rw [upload_data_eq_of_loop index cs limit lines inserts actions hr]

/-- The error of `upload_data`, given the loop's final state: only the
`ValueError` of an empty wait set remains possible. -/
theorem upload_data_error_of_loop (index : String) (cs : Nat)
    (limit : Option Int) (lines : List (Option JVal))
    (inserts : List (List Action)) (actions : List Action)
    (hr : uploadLoop index cs limit lines 0 [] [] = (inserts, actions, none)) :
    (upload_data index cs limit lines).error
      = if (if actions.isEmpty then inserts else inserts ++ [actions]).isEmpty
        then some .valueError else none := by
  rw [upload_data_eq_of_loop index cs limit lines inserts actions hr]

/-- On a well-formed stream, concatenating the scheduled batches in
submission order yields exactly the records read, in read order. -/
theorem upload_data_flatten_wf (index : String) (cs : Nat) (limit : Option Int)
    (lines : List (Option JVal))
    (hwf : ∀ l ∈ lines, (parseLine index l).isSome) :
    (upload_data index cs limit lines).scheduled.flatten
      = recordsRead index limit lines := by
  rcases hr : uploadLoop index cs limit lines 0 [] [] with ⟨inserts, actions, err⟩
  obtain ⟨h1, h2⟩ := uploadLoop_wf index cs limit lines 0 [] [] hwf
  rw [hr] at h1 h2
  simp only at h1 h2
  subst h1
  rw [upload_data_scheduled_of_loop index cs limit lines inserts actions hr]
  by_cases hae : actions.isEmpty
  · have ha0 : actions = [] := by simpa [List.isEmpty_iff] using hae
    subst ha0
    simpa [recordsRead] using h2
  · simp only [hae, Bool.false_eq_true, if_false]
    simpa [recordsRead, List.append_assoc] using h2

/-! ### The claims -/

/-- C1: for every finite stream of well-formed records, every record read
is placed into exactly one scheduled batch — no record is duplicated or
dropped — and concatenating the batches in submission order reproduces the
original read order. -/
theorem upload_batches_concat_eq_read_order (index : String) (cs : Nat)
    (limit : Option Int) (lines : List (Option JVal))
    (hwf : ∀ l ∈ lines, (parseLine index l).isSome) :
    (upload_data index cs limit lines).scheduled.flatten
      = recordsRead index limit lines :=
  upload_data_flatten_wf index cs limit lines hwf

/-- Witness for C1 at a concrete three-record stream with `chunk_size = 2`. -/
theorem upload_batches_concat_eq_read_order_witness :
    (upload_data "idx" 2 none
        [sampleLine 1, sampleLine 2, sampleLine 3]).scheduled.flatten
      = recordsRead "idx" none [sampleLine 1, sampleLine 2, sampleLine 3] :=
  upload_batches_concat_eq_read_order "idx" 2 none
    [sampleLine 1, sampleLine 2, sampleLine 3] (by decide)

/-- C2: with no limit set, every scheduled batch has exactly `chunk_size`
records except possibly the last, whose size lies in `[1, chunk_size]`;
in particular no empty batch is ever scheduled, and when the stream length
is an exact multiple of `chunk_size` every batch is exactly full. -/
theorem upload_batch_sizes (index : String) (cs : Nat) (hcs : 0 < cs)
    (lines : List (Option JVal))
    (hwf : ∀ l ∈ lines, (parseLine index l).isSome) :
    (∀ b ∈ (upload_data index cs none lines).scheduled.dropLast,
        b.length = cs) ∧
    (∀ b ∈ (upload_data index cs none lines).scheduled,
        1 ≤ b.length ∧ b.length ≤ cs) ∧
    (lines.length % cs = 0 →
      ∀ b ∈ (upload_data index cs none lines).scheduled, b.length = cs) := by
  rcases hr : uploadLoop index cs none lines 0 [] [] with ⟨inserts, actions, err⟩
  obtain ⟨h1, _⟩ := uploadLoop_wf index cs none lines 0 [] [] hwf
  rw [hr] at h1
  simp only at h1
  subst h1
  obtain ⟨hs1, hs2⟩ := uploadLoop_sizes index cs hcs lines 0 [] [] hwf (by simp)
    (by simp)
  rw [hr] at hs1 hs2
  simp only at hs1 hs2
  rw [upload_data_scheduled_of_loop index cs none lines inserts actions hr]
  by_cases hae : actions.isEmpty
  · simp only [hae, if_true]
    refine ⟨fun b hb => hs1 b (List.dropLast_subset _ hb),
      fun b hb => ?_, fun _ b hb => hs1 b hb⟩
    rw [hs1 b hb]
    omega
  · simp only [hae, Bool.false_eq_true, if_false]
    have hane : actions ≠ [] := by simpa [List.isEmpty_iff] using hae
    have halen : 1 ≤ actions.length := List.length_pos.mpr hane
    have hlt : actions.length < cs := by
      rw [hs2]
      exact Nat.mod_lt _ hcs
    refine ⟨?_, ?_, ?_⟩
    · intro b hb
      rw [List.dropLast_concat] at hb
      exact hs1 b hb
    · intro b hb
      rcases List.mem_append.mp hb with hb | hb
      · have := hs1 b hb
        omega
      · have hb' : b = actions := by simpa using hb
        subst hb'
        omega
    · intro hmul b _
      exfalso
      apply hane
      have hz : actions.length = 0 := by
        rw [hs2]
        simpa using hmul
      exact List.length_eq_zero.mp hz

/-- Witness for C2 at a concrete five-record stream with `chunk_size = 2`
and a concrete four-record stream (an exact multiple of the chunk size). -/
theorem upload_batch_sizes_witness :
    (0 : Nat) < 2 ∧
    ((∀ b ∈ (upload_data "idx" 2 none
          [sampleLine 1, sampleLine 2, sampleLine 3, sampleLine 4,
           sampleLine 5]).scheduled.dropLast, b.length = 2) ∧
     (∀ b ∈ (upload_data "idx" 2 none
          [sampleLine 1, sampleLine 2, sampleLine 3, sampleLine 4,
           sampleLine 5]).scheduled, 1 ≤ b.length ∧ b.length ≤ 2) ∧
     ([sampleLine 1, sampleLine 2, sampleLine 3, sampleLine 4,
       sampleLine 5].length % 2 = 0 →
      ∀ b ∈ (upload_data "idx" 2 none
          [sampleLine 1, sampleLine 2, sampleLine 3, sampleLine 4,
           sampleLine 5]).scheduled, b.length = 2)) :=
  ⟨by decide,
    upload_batch_sizes "idx" 2 (by decide)
      [sampleLine 1, sampleLine 2, sampleLine 3, sampleLine 4, sampleLine 5]
      (by decide)⟩

/-- C3: with a positive limit `L` and a well-formed stream longer than `L`,
exactly `L` records are read — the record that reaches the limit included,
the stream truncated exactly there — every record read lands in a scheduled
batch (the final, possibly partial, batch is still submitted), and the run
completes without error. -/
theorem upload_limit_truncates (index : String) (cs : Nat) (hcs : 0 < cs)
    (L : Int) (hL : 0 < L) (lines : List (Option JVal))
    (hwf : ∀ l ∈ lines, (parseLine index l).isSome)
    (hlen : L.toNat < lines.length) :
    (upload_data index cs (some L) lines).scheduled.flatten
        = recordsRead index (some L) lines ∧
    recordsRead index (some L) lines
        = recordsRead index none (lines.take L.toNat) ∧
    (recordsRead index (some L) lines).length = L.toNat ∧
    (upload_data index cs (some L) lines).error = none := by
  have hflat := upload_data_flatten_wf index cs (some L) lines hwf
  have htake : recordsRead index (some L) lines
      = recordsRead index none (lines.take L.toNat) := by
    have h := recordsReadAux_limit_take index L hL lines 0 (by exact_mod_cast hL)
    simpa [recordsRead] using h
  have hlen' : (recordsRead index (some L) lines).length = L.toNat := by
    rw [htake]
    unfold recordsRead
    rw [recordsReadAux_wf_length index _ 0
      (fun l hl => hwf l (List.take_subset _ _ hl))]
    simp only [List.length_take]
    omega
  refine ⟨hflat, htake, hlen', ?_⟩
  rcases hr : uploadLoop index cs (some L) lines 0 [] [] with ⟨inserts, actions, err⟩
  obtain ⟨h1, _⟩ := uploadLoop_wf index cs (some L) lines 0 [] [] hwf
  rw [hr] at h1
  simp only at h1
  subst h1
  rw [upload_data_error_of_loop index cs (some L) lines inserts actions hr]
  have hsched := upload_data_scheduled_of_loop index cs (some L) lines inserts actions hr
  by_cases he : (if actions.isEmpty then inserts else inserts ++ [actions]).isEmpty
  · exfalso
    have hnil : (upload_data index cs (some L) lines).scheduled = [] := by
      rw [hsched]
      simpa [List.isEmpty_iff] using he
    rw [hnil] at hflat
    have h0 : (recordsRead index (some L) lines).length = 0 := by
      rw [← hflat]
      simp
    omega
  · simp [he]

/-- Witness for C3: `limit = 2`, `chunk_size = 5`, a three-record stream. -/
theorem upload_limit_truncates_witness :
    (upload_data "idx" 5 (some 2)
        [sampleLine 1, sampleLine 2, sampleLine 3]).scheduled.flatten
        = recordsRead "idx" (some 2) [sampleLine 1, sampleLine 2, sampleLine 3] ∧
    recordsRead "idx" (some 2) [sampleLine 1, sampleLine 2, sampleLine 3]
        = recordsRead "idx" none
            ([sampleLine 1, sampleLine 2, sampleLine 3].take (2 : Int).toNat) ∧
    (recordsRead "idx" (some 2)
        [sampleLine 1, sampleLine 2, sampleLine 3]).length = (2 : Int).toNat ∧
    (upload_data "idx" 5 (some 2)
        [sampleLine 1, sampleLine 2, sampleLine 3]).error = none :=
  upload_limit_truncates "idx" 5 (by decide) 2 (by decide)
    [sampleLine 1, sampleLine 2, sampleLine 3] (by decide) (by decide)

/-- C4 counterexample: a stream whose second line is malformed, with
`chunk_size = 1`.  One submission task is already scheduled when the
`ParseError` hits, yet the wait statement at line 92 is never reached — the
scheduled task is not awaited by `upload_data`, contradicting the claim
that already-scheduled submissions are awaited to completion. -/
theorem parse_error_tasks_not_awaited_cex :
    (upload_data "idx" 1 none [sampleLine 1, none]).scheduled
      = [[⟨"idx", "1", .obj [("f", .str "x")]⟩]] ∧
    (upload_data "idx" 1 none [sampleLine 1, none]).reachedWait = false ∧
    (upload_data "idx" 1 none [sampleLine 1, none]).error
      = some (.parseError 2) :=
  ⟨rfl, rfl, rfl⟩

/-- C4 amended: on a stream whose well-formed prefix (not cut short by the
limit) is followed by a malformed line, the run aborts with a `ParseError`
at that line, and the submission tasks already scheduled are NOT awaited by
`upload_data`: the exception propagates before the wait statement, leaving
the in-flight tasks to the event-loop shutdown. -/
theorem parse_error_aborts_without_await (index : String) (cs : Nat)
    (limit : Option Int) (pre : List (Option JVal)) (bad : Option JVal)
    (rest : List (Option JVal))
    (hwf : ∀ l ∈ pre, (parseLine index l).isSome)
    (hbad : parseLine index bad = none)
    (hlim : ∀ j, 1 ≤ j → j ≤ pre.length → limitHit limit j = false) :
    (upload_data index cs limit (pre ++ bad :: rest)).error
        = some (.parseError (pre.length + 1)) ∧
    (upload_data index cs limit (pre ++ bad :: rest)).reachedWait = false := by
  have hfail := uploadLoop_parse_fail index cs limit bad hbad rest pre 0 [] [] hwf
    (fun j h1 h2 => hlim j h1 (by omega))
  rcases hr : uploadLoop index cs limit (pre ++ bad :: rest) 0 [] [] with
    ⟨inserts, actions, err⟩
  rw [hr] at hfail
  simp only at hfail
  subst hfail
  rw [upload_data_eq_of_loop_err index cs limit _ inserts actions _ hr]
  constructor <;> simp

/-- Witness for the amended C4 at a concrete stream. -/
theorem parse_error_aborts_without_await_witness :
    (upload_data "idx" 1 none [sampleLine 1, none, sampleLine 3]).error
        = some (.parseError 2) ∧
    (upload_data "idx" 1 none [sampleLine 1, none, sampleLine 3]).reachedWait
        = false := by
  have h := parse_error_aborts_without_await "idx" 1 none [sampleLine 1] none
    [sampleLine 3] (by decide) rfl (fun j h1 h2 => rfl)
  simpa using h

/-- Looking up `k` after filtering out every entry with key `k` fails. -/
theorem lookupKey_filter_self (d : List (String × JVal)) (k : String) :
    lookupKey (d.filter (fun kv => kv.1 ≠ k)) k = none := by
  induction d with
  | nil => rfl
  | cons kv rest ih =>
    obtain ⟨k', v⟩ := kv
    by_cases h : k' = k
    · simpa [List.filter_cons, h] using ih
    · simpa [List.filter_cons, h, lookupKey] using ih

/-- Filtering never makes an absent key present. -/
theorem lookupKey_filter_none (d : List (String × JVal))
    (p : String × JVal → Bool) (k : String)
    (h : lookupKey d k = none) : lookupKey (d.filter p) k = none := by
  induction d with
  | nil => rfl
  | cons kv rest ih =>
    obtain ⟨k', v⟩ := kv
    simp only [lookupKey] at h
    by_cases hk : k' = k
    · rw [if_pos hk] at h
      cases h
    · rw [if_neg hk] at h
      cases hp : p (k', v)
      · simpa [List.filter_cons, hp] using ih h
      · simpa [List.filter_cons, hp, lookupKey, hk] using ih h

/-- A successful `dict.pop(k)` leaves the dictionary without key `k`. -/
theorem dictPop_eq_some (d s : List (String × JVal)) (k : String)
    (h : dictPop d k = some s) : s = d.filter (fun kv => kv.1 ≠ k) := by
  unfold dictPop at h
  cases hl : lookupKey d k with
  | none => rw [hl] at h; cases h
  | some v =>
    rw [hl] at h
    simp only [Option.some.injEq] at h
    exact h.symm

/-- C5 counterexample: a concrete exported settings object strips
successfully, but applying the stripping a second time to the stripped
object raises `KeyError` (the one-argument `dict.pop` requires the key)
instead of succeeding unchanged. -/
theorem strip_not_idempotent_cex :
    stripSettings exSettings = some exStripped ∧
    stripSettings exStripped = none :=
  ⟨rfl, rfl⟩

/-- C5 amended: the settings-stripping step is not idempotent — applying
the removal of the five cluster-local keys to any already-stripped settings
object fails with `KeyError` (modelled as `none`) rather than succeeding
and leaving the object unchanged. -/
theorem strip_twice_fails (s s' : List (String × JVal))
    (h : stripSettings s = some s') : stripSettings s' = none := by
  have hroute : lookupKey s' "routing" = none := by
    unfold stripSettings at h
    cases h1 : dictPop s "routing" with
    | none => simp [h1] at h
    | some s1 =>
      simp only [h1, Option.bind_eq_bind, Option.some_bind] at h
      cases h2 : dictPop s1 "provided_name" with
      | none => simp [h2] at h
      | some s2 =>
        simp only [h2, Option.some_bind] at h
        cases h3 : dictPop s2 "creation_date" with
        | none => simp [h3] at h
        | some s3 =>
          simp only [h3, Option.some_bind] at h
          cases h4 : dictPop s3 "uuid" with
          | none => simp [h4] at h
          | some s4 =>
            simp only [h4, Option.some_bind] at h
            cases h5 : dictPop s4 "version" with
            | none => simp [h5] at h
            | some s5 =>
              simp only [h5, Option.some_bind, Option.pure_def,
                Option.some.injEq] at h
              subst h
              have k1 : lookupKey s1 "routing" = none := by
                rw [dictPop_eq_some s s1 "routing" h1]
                exact lookupKey_filter_self s "routing"
              have k2 : lookupKey s2 "routing" = none := by
                rw [dictPop_eq_some s1 s2 "provided_name" h2]
                exact lookupKey_filter_none s1 _ "routing" k1
              have k3 : lookupKey s3 "routing" = none := by
                rw [dictPop_eq_some s2 s3 "creation_date" h3]
                exact lookupKey_filter_none s2 _ "routing" k2
              have k4 : lookupKey s4 "routing" = none := by
                rw [dictPop_eq_some s3 s4 "uuid" h4]
                exact lookupKey_filter_none s3 _ "routing" k3
              rw [dictPop_eq_some s4 s5 "version" h5]
              exact lookupKey_filter_none s4 _ "routing" k4
  have hpop : dictPop s' "routing" = none := by simp [dictPop, hroute]
  simp [stripSettings, hpop]

/-- Witness for the amended C5 at the concrete stripped settings object. -/
theorem strip_twice_fails_witness : stripSettings exStripped = none :=
  strip_twice_fails exSettings exStripped rfl

/-- C6: when the cluster's create-index response is a rejection (falsy
`acknowledged`), `create_index_with_meta` does not raise — it returns
normally with the failure log line chosen from the acknowledgement flag —
and `start` in default mode proceeds to the document upload regardless. -/
theorem create_index_rejection_nonfatal (sv mv : JVal)
    (sdict stripped : List (String × JVal))
    (hindex : getItem sv "index" = some (.obj sdict))
    (hstrip : stripSettings sdict = some stripped)
    (createRes : List (String × JVal))
    (hrej : truthy (lookupKey createRes "acknowledged") = false)
    (index : String) (cs : Nat) (limit : Option Int)
    (lines : List (Option JVal)) :
    create_index_with_meta (some sv) (some mv) createRes
      = some ⟨stripped, mv, "Index creation failed!"⟩ ∧
    start "default" (some sv) (some mv) createRes index cs limit lines
      = .metaThenUpload ⟨stripped, mv, "Index creation failed!"⟩
          (upload_data index cs limit lines) := by
  have h1 : create_index_with_meta (some sv) (some mv) createRes
      = some ⟨stripped, mv, "Index creation failed!"⟩ := by
    simp [create_index_with_meta, hindex, hstrip, asObj, hrej]
  exact ⟨h1, by simp [start, h1]⟩

/-- Witness for C6: a rejected create call (`acknowledged: false`) on
concrete well-formed metadata. -/
theorem create_index_rejection_nonfatal_witness :
    create_index_with_meta rSettingsLine (some (.obj []))
        [("acknowledged", .bool false)]
      = some ⟨[], .obj [], "Index creation failed!"⟩ ∧
    start "default" rSettingsLine (some (.obj []))
        [("acknowledged", .bool false)] "idx" 1 none [sampleLine 1]
      = .metaThenUpload ⟨[], .obj [], "Index creation failed!"⟩
          (upload_data "idx" 1 none [sampleLine 1]) :=
  create_index_rejection_nonfatal (.obj [("index", .obj rSettings)]) (.obj [])
    rSettings [] rfl rfl [("acknowledged", .bool false)] rfl "idx" 1 none
    [sampleLine 1]

/-- C7: with `mode = data` the metadata-restore step is never invoked and
only the document upload runs; with `mode = default` (and metadata that
parses) the metadata restore runs first and the document upload always
follows. -/
theorem start_mode_steps (settingsLine mappingsLine : Option JVal)
    (createRes : List (String × JVal)) (index : String) (cs : Nat)
    (limit : Option Int) (lines : List (Option JVal)) (m : MetaOutcome)
    (hmeta : create_index_with_meta settingsLine mappingsLine createRes
      = some m) :
    start "data" settingsLine mappingsLine createRes index cs limit lines
      = .uploadOnly (upload_data index cs limit lines) ∧
    start "default" settingsLine mappingsLine createRes index cs limit lines
      = .metaThenUpload m (upload_data index cs limit lines) := by
  constructor
  · simp [start]
  · simp [start, hmeta]

/-- Witness for C7 at concrete metadata and a one-record stream. -/
theorem start_mode_steps_witness :
    start "data" rSettingsLine (some (.obj [])) [] "idx" 1 none [sampleLine 1]
      = .uploadOnly (upload_data "idx" 1 none [sampleLine 1]) ∧
    start "default" rSettingsLine (some (.obj [])) [] "idx" 1 none
        [sampleLine 1]
      = .metaThenUpload ⟨[], .obj [], "Index creation failed!"⟩
          (upload_data "idx" 1 none [sampleLine 1]) :=
  start_mode_steps rSettingsLine (some (.obj [])) [] "idx" 1 none
    [sampleLine 1] ⟨[], .obj [], "Index creation failed!"⟩ rfl

/-- C8: on the empty document stream no batch is ever scheduled, the
`asyncio.wait` call at line 92 raises `ValueError` on the empty task set,
and the final completion log is never reached. -/
theorem empty_stream_wait_value_error (index : String) (cs : Nat)
    (limit : Option Int) :
    upload_data index cs limit [] = ⟨[], true, some .valueError⟩ ∧
    completionLogged (upload_data index cs limit []) = false :=
  ⟨rfl, rfl⟩

/-- C9: a limit of `0` is falsy in Python, so the loop treats it as no
limit at all: the upload and the records read coincide with the unlimited
run, rather than zero records being read. -/
theorem limit_zero_means_no_limit (index : String) (cs : Nat)
    (lines : List (Option JVal)) :
    upload_data index cs (some 0) lines = upload_data index cs none lines ∧
    recordsRead index (some 0) lines = recordsRead index none lines := by
  constructor
  · unfold upload_data
    rw [uploadLoop_limit_zero]
  · unfold recordsRead
    rw [recordsReadAux_limit_zero]

/-- C10: the id under which a record is submitted is the `str()` coercion
of the line's `_id` field; in particular a numeric `_id` is written under
its decimal string form. -/
theorem submitted_id_is_str_of_id (index : String) (v idv src : JVal)
    (hid : getItem v "_id" = some idv) (hsrc : getItem v "_source" = some src) :
    parseLine index (some v) = some ⟨index, pyStr idv, src⟩ ∧
    ∀ n : Int, idv = JVal.num n → pyStr idv = toString n := by
  refine ⟨?_, ?_⟩
  · simp [parseLine, hid, hsrc]
  · rintro n rfl
    rfl

/-- Witness for C10: a concrete line with numeric `_id = 42` is submitted
under the string id `"42"`. -/
theorem submitted_id_is_str_of_id_witness :
    parseLine "idx" (some (.obj [("_id", .num 42), ("_source", .obj [])]))
      = some ⟨"idx", "42", .obj []⟩ ∧ pyStr (.num 42) = "42" := by
  have h := submitted_id_is_str_of_id "idx"
    (.obj [("_id", .num 42), ("_source", .obj [])]) (.num 42) (.obj []) rfl rfl
  have hps : pyStr (JVal.num 42) = "42" := rfl
  exact ⟨by rw [h.1, hps], (h.2 42 rfl).trans rfl⟩

end ElasticTools
